import Mathlib

/-!
Verification development for the Sysdarft operand codec and CPU operand
resolver.  Definitions are shallow embeddings of the C++ sources:

* `src/utils/Assembler/encode.target.cpp` — the assembler/disassembler
  operand codec (`encode_target`, `decode`, `parse`, `pop`).
* `src/src/sysdarft_processor/cpu/real_mode_target_access.cpp` — the CPU
  instruction-stream operand decoder (`processor::Target`) and the operand
  resolver (`get_target_content_in_u64bit_t`, `set_target_content_in_u64bit_t`,
  `do_get_register`, `do_set_register`).
* `src/src/sysdarft_processor/cpu/instruction_executor.cpp` — the interrupt
  vector table initialisation and the top-level `operation` dispatcher.

Machine integers are `Nat` (bytes are naturals < 256, 64-bit cells are
naturals reduced mod 2^64 where the C++ wraps).  Fallible code (C++ throws
of `TargetExpressionError` / `IllegalInstruction`, and out-of-bounds pops)
is embedded with `Option`.
-/

/- Operand record prefixes, from encode.target.cpp lines 14–16
   (`REGISTER_PREFIX` / `CONSTANT_PREFIX` / `MEMORY_PREFIX`; Lean names
   shortened). -/
def REGISTER_PFX : Nat := 0x01
def CONSTANT_PFX : Nat := 0x02
def MEMORY_PFX : Nat := 0x03

/-- Uppercase hexadecimal rendering of a natural number, as produced by the
C++ stream manipulators `std::hex << std::uppercase` in `decode_constant`. -/
def toHexUpper (n : Nat) : String :=
  String.mk ((Nat.toDigits 16 n).map Char.toUpper)

/-- Decimal rendering of an integer with a leading minus for negative
values, as produced by streaming an `int64_t` in `decode_constant`. -/
def intDecStr (i : Int) : String :=
  if i < 0 then "-" ++ toString (-i).toNat else toString i.toNat

/-- The signed (two's-complement) reading of a 64-bit cell, i.e. the
`int64_t` reinterpretation performed by `decode_constant`
(encode.target.cpp line 365). -/
def toSigned64 (v : Nat) : Int :=
  if v < 2 ^ 63 then (v : Int) else (v : Int) - 2 ^ 64

/-- Little-endian byte serialisation of the low `n` bytes of `v`, as done by
`push<LENGTH>` in encode.target.cpp lines 44–53. -/
def toLEBytes : Nat → Nat → List Nat
  | 0, _ => []
  | n + 1, v => v % 256 :: toLEBytes n (v / 256)

/-- `pop<8*n>` from encode.target.cpp lines 311–332: remove `n` bytes from
the front of the stream and assemble them little-endian.  The C++ indexes
`input[0]` with no length check; the total embedding returns `none` when the
stream is too short. -/
def popBytes : Nat → List Nat → Option (Nat × List Nat)
  | 0, input => some (0, input)
  | _ + 1, [] => none
  | n + 1, b :: rest =>
    match popBytes n rest with
    | none => none
    | some (hi, rem) => some (b + 256 * hi, rem)

/- ----------------------------------------------------------------- -/
/- Constant evaluation model (encode_constant, lines 200–242).         -/
/- ----------------------------------------------------------------- -/

/-- Model of `strtoll` applied to the exact decimal output of the `bc`
subprocess for value `E` (encode.target.cpp line 219): saturate at the
`int64_t` bounds. -/
def strtollOf (E : Int) : Int :=
  if E > 2 ^ 63 - 1 then 2 ^ 63 - 1
  else if E < -(2 ^ 63) then -(2 ^ 63) else E

/-- Model of `strtoull` applied to the exact decimal output of `bc` for
value `E` (encode.target.cpp line 220): non-negative values saturate at
2^64 - 1; a leading minus negates in the unsigned type, saturating at
2^64 - 1 when the digits overflow. -/
def strtoullOf (E : Int) : Int :=
  if 0 ≤ E then (if E > 2 ^ 64 - 1 then 2 ^ 64 - 1 else E)
  else (if -E ≤ 2 ^ 64 - 1 then 2 ^ 64 + E else 2 ^ 64 - 1)

/-- The `__int128_t result` selected by `encode_constant` (lines 219–233)
for a constant expression that evaluates exactly to `E` and whose processed
text starts with a minus sign iff `negFront`: if the signed and unsigned
readings agree use them, otherwise pick the signed one exactly when the text
begins with a minus. -/
def bcStored (E : Int) (negFront : Bool) : Int :=
  let c1 := strtollOf E
  let c2 := strtoullOf E
  if c1 = c2 then c1 else if negFront then c1 else c2

/-- Sign byte emitted by `encode_constant` (lines 235–239): `0x01` iff the
selected result is negative. -/
def storedSign (E : Int) (negFront : Bool) : Nat :=
  if bcStored E negFront < 0 then 0x01 else 0x00

/-- The 64-bit cell emitted by `encode_constant` (line 241, `push<64>` of
the `__int128_t`): the low 8 bytes, i.e. the value mod 2^64. -/
def storedVal (E : Int) (negFront : Bool) : Nat :=
  (bcStored E negFront % (2 ^ 64 : Int)).toNat

/- ----------------------------------------------------------------- -/
/- Operand text grammar (parse, lines 87–129).                         -/
/- ----------------------------------------------------------------- -/

/-- Register classes admitted by `register_pattern`
(encode.target.cpp line 19). -/
inductive RegClass
  | R | EXR | HER | FER
deriving DecidableEq

/-- Width tag byte emitted for each register class by `encode_register`
(lines 189–196). -/
def regWidthTag : RegClass → Nat
  | .R => 0x08
  | .EXR => 0x16
  | .HER => 0x32
  | .FER => 0x64

/-- Canonical upper-case register-class text, as in the grammar and in
`decode_register` (lines 346–353). -/
def regClassText : RegClass → String
  | .R => "%R"
  | .EXR => "%EXR"
  | .HER => "%HER"
  | .FER => "%FER"

/-- The finite language of `register_pattern`
`%(R[0-7]|EXR[0-7]|HER[0-7]|FER[0-7])` (encode.target.cpp line 19),
membership in which is `is_valid_register`. -/
def valid_register_names : List String :=
  ((List.range 8).map fun i => "%R" ++ toString i) ++
  ((List.range 8).map fun i => "%EXR" ++ toString i) ++
  ((List.range 8).map fun i => "%HER" ++ toString i) ++
  ((List.range 8).map fun i => "%FER" ++ toString i)

/-- `is_valid_register` (lines 60–62): regex match against
`register_pattern`, i.e. membership in its finite language. -/
def is_valid_register (s : String) : Bool :=
  valid_register_names.contains s

/-- Memory-ratio choices of `memory_pattern` (line 21). -/
inductive MemScale
  | s1 | s2 | s4 | s8 | s16
deriving DecidableEq

/-- Packed-BCD ratio byte emitted by `encode_memory` (lines 248–259). -/
def memScaleByte : MemScale → Nat
  | .s1 => 0x01
  | .s2 => 0x02
  | .s4 => 0x04
  | .s8 => 0x08
  | .s16 => 0x16

/-- Ratio text as written in the operand grammar. -/
def memScaleText : MemScale → String
  | .s1 => "1"
  | .s2 => "2"
  | .s4 => "4"
  | .s8 => "8"
  | .s16 => "16"

/-- A memory sub-operand accepted by `encode_memory`'s
`encode_each_parameter` (lines 261–288): a `%FER` register (any other
register class throws) or a constant expression.  A constant is represented
by the exact value `E` of its (hex-expanded) expression together with
whether the processed text begins with a minus sign. -/
inductive MemSub
  | fer (idx : Fin 8)
  | cnst (E : Int) (negFront : Bool)

/-- A parsed operand (`parsed_target_t`, lines 24–36), with the three
grammar forms of `parse` (lines 87–129): register, constant, memory.
Spaces are already stripped and letters upper-cased by `parse`, so the
representation is case- and space-free. -/
inductive ParsedTarget
  | reg (cls : RegClass) (idx : Fin 8)
  | cnst (E : Int) (negFront : Bool)
  | mem (scale : MemScale) (base off1 off2 : MemSub)

/- ----------------------------------------------------------------- -/
/- Encoder (encode_register / encode_constant / encode_memory /        -/
/- encode_target, lines 183–309).                                      -/
/- ----------------------------------------------------------------- -/

/-- `encode_register` (lines 183–198): prefix, width tag, index. -/
def encode_register_bytes (cls : RegClass) (idx : Fin 8) : List Nat :=
  [REGISTER_PFX, regWidthTag cls, idx.val]

/-- `encode_constant` (lines 200–242): prefix, sign byte, 8 value bytes
little-endian. -/
def encode_constant_bytes (E : Int) (negFront : Bool) : List Nat :=
  CONSTANT_PFX :: storedSign E negFront :: toLEBytes 8 (storedVal E negFront)

/-- `encode_each_parameter` inside `encode_memory` (lines 261–288). -/
def encodeMemSub : MemSub → List Nat
  | .fer i => encode_register_bytes .FER i
  | .cnst E n => encode_constant_bytes E n

/-- `encode_target` (lines 295–309), composed with the per-kind encoders.
Note `encode_memory` (lines 244–293) emits prefix, ratio byte, then the
three sub-operand records — no access-width byte anywhere. -/
def encode_target : ParsedTarget → List Nat
  | .reg c i => encode_register_bytes c i
  | .cnst E n => encode_constant_bytes E n
  | .mem r b o1 o2 =>
    MEMORY_PFX :: memScaleByte r ::
      (encodeMemSub b ++ encodeMemSub o1 ++ encodeMemSub o2)

/- ----------------------------------------------------------------- -/
/- Disassembler (decode_register / decode_constant / decode_memory /   -/
/- decode, lines 338–420).  Output is the vector of emitted strings     -/
/- plus the remaining input.                                            -/
/- ----------------------------------------------------------------- -/

/-- `decode_register` (lines 338–358): pop size and index, render
`%<class><index>`; unknown size byte throws. -/
def decode_register (input : List Nat) : Option (List String × List Nat) :=
  match input with
  | size :: idx :: rest =>
    if size = 0x08 then some (["%R" ++ toString idx], rest)
    else if size = 0x16 then some (["%EXR" ++ toString idx], rest)
    else if size = 0x32 then some (["%HER" ++ toString idx], rest)
    else if size = 0x64 then some (["%FER" ++ toString idx], rest)
    else none
  | _ => none

/-- `decode_constant` (lines 360–376): pop the sign byte and the 8-byte
little-endian value; render signed values in decimal via the `int64_t`
reinterpretation and unsigned values as upper-case hexadecimal. -/
def decode_constant (input : List Nat) : Option (List String × List Nat) :=
  match input with
  | sign :: rest =>
    match popBytes 8 rest with
    | some (num, rem) =>
      some ([if sign ≠ 0x00 then "$(" ++ intDecStr (toSigned64 num) ++ ")"
             else "$(" ++ "0x" ++ toHexUpper num ++ ")"], rem)
    | none => none
  | [] => none

/-- `decode_each_parameter` inside `decode_memory` (lines 393–401):
dispatch on a register or constant prefix; anything else throws. -/
def decodeMemParamText (input : List Nat) : Option (List String × List Nat) :=
  match input with
  | p :: rest =>
    if p = REGISTER_PFX then decode_register rest
    else if p = CONSTANT_PFX then decode_constant rest
    else none
  | [] => none

/-- `decode_memory` (lines 378–409): pop the ratio byte (one of the five
packed-BCD values, otherwise throw), then the three sub-operands separated
by a comma-space string, then a closing parenthesis. -/
def decode_memory (input : List Nat) : Option (List String × List Nat) :=
  match input with
  | rb :: rest =>
    match (if rb = 0x01 then some "*1(" else if rb = 0x02 then some "*2("
           else if rb = 0x04 then some "*4(" else if rb = 0x08 then some "*8("
           else if rb = 0x16 then some "*16(" else none) with
    | none => none
    | some rs =>
      match decodeMemParamText rest with
      | none => none
      | some (o1, r1) =>
        match decodeMemParamText r1 with
        | none => none
        | some (o2, r2) =>
          match decodeMemParamText r2 with
          | none => none
          | some (o3, r3) =>
            some (rs :: (o1 ++ [", "] ++ o2 ++ [", "] ++ o3 ++ [")"]), r3)
  | [] => none

/-- `decode` (lines 411–420): dispatch on the operand prefix byte. -/
def decode (input : List Nat) : Option (List String × List Nat) :=
  match input with
  | p :: rest =>
    if p = REGISTER_PFX then decode_register rest
    else if p = CONSTANT_PFX then decode_constant rest
    else if p = MEMORY_PFX then decode_memory rest
    else none
  | [] => none

/- ----------------------------------------------------------------- -/
/- Canonical text per the specification.                               -/
/- ----------------------------------------------------------------- -/

/-- Canonical constant text per the spec's sign rule: signed constants in
decimal with a leading minus, unsigned constants in upper-case
hexadecimal, applied to the stored sign/value pair of the rule. -/
def canonConstText (E : Int) (negFront : Bool) : String :=
  if storedSign E negFront ≠ 0x00 then
    "$(" ++ intDecStr (toSigned64 (storedVal E negFront)) ++ ")"
  else
    "$(" ++ "0x" ++ toHexUpper (storedVal E negFront) ++ ")"

/-- Canonical text of a memory sub-operand. -/
def canonMemSubText : MemSub → String
  | .fer i => "%FER" ++ toString i.val
  | .cnst E n => canonConstText E n

/-- `canonicalize` exactly as the round-trip claim words it: spaces
stripped, upper-case, constants rendered by the sign rule.  In particular
the three memory sub-operands are separated by bare commas, spaces having
been stripped. -/
def canonicalize : ParsedTarget → String
  | .reg c i => regClassText c ++ toString i.val
  | .cnst E n => canonConstText E n
  | .mem r b o1 o2 =>
    "*" ++ memScaleText r ++ "(" ++ canonMemSubText b ++ "," ++
      canonMemSubText o1 ++ "," ++ canonMemSubText o2 ++ ")"

/-- Canonical disassembly pieces (amended claim): identical to
`canonicalize` except that the disassembler separates the three memory
sub-operands with a comma followed by one space. -/
def canonPieces : ParsedTarget → List String
  | .reg c i => [regClassText c ++ toString i.val]
  | .cnst E n => [canonConstText E n]
  | .mem r b o1 o2 =>
    ["*" ++ memScaleText r ++ "(", canonMemSubText b, ", ",
     canonMemSubText o1, ", ", canonMemSubText o2, ")"]

/- ----------------------------------------------------------------- -/
/- CPU model (real_mode_target_access.cpp, instruction_executor.cpp). -/
/- ----------------------------------------------------------------- -/

/-- Modelled from the spec: `cpu.h` is not in the sources; §6 says the
named 64-bit control registers occupy register indices ≥ 0x10 with
implementation-assigned stable values.  `R_StackPointer`,
`R_DataPointer` and `R_ExtendedSegmentPointer` are given the three
lowest such indices. -/
def R_StackPointer : Nat := 0x10

/-- Modelled from the spec: see `R_StackPointer`. -/
def R_DataPointer : Nat := 0x11

/-- Modelled from the spec: see `R_StackPointer`. -/
def R_ExtendedSegmentPointer : Nat := 0x12

/-- Modelled from the spec: the illegal-instruction interrupt code.  §8
scenario 6 sends an unknown opcode to vector entry `0xA0000`, which is
entry 0 of the table, so `INT_ILLEGAL_INSTRUCTION` is interrupt number 0. -/
def INT_ILLEGAL_INSTRUCTION : Nat := 0

/-- The register file of the processor (`CPU.Registers`), with the fields
referenced by real_mode_target_access.cpp.  Field widths follow the spec
(§3): 8-bit `R0..R7`, 16-bit extended, 32-bit half-extended, 64-bit
fully-extended and control registers.  Fields hold naturals; every write
in `do_set_register` masks to the declared width, mirroring the C++
integral casts. -/
structure SysdarftRegisters where
  R0 : Nat
  R1 : Nat
  R2 : Nat
  R3 : Nat
  R4 : Nat
  R5 : Nat
  R6 : Nat
  R7 : Nat
  ExtendedRegister0 : Nat
  ExtendedRegister1 : Nat
  ExtendedRegister2 : Nat
  ExtendedRegister3 : Nat
  ExtendedRegister4 : Nat
  ExtendedRegister5 : Nat
  ExtendedRegister6 : Nat
  ExtendedRegister7 : Nat
  HalfExtendedRegister0 : Nat
  HalfExtendedRegister1 : Nat
  HalfExtendedRegister2 : Nat
  HalfExtendedRegister3 : Nat
  HalfExtendedRegister4 : Nat
  HalfExtendedRegister5 : Nat
  HalfExtendedRegister6 : Nat
  HalfExtendedRegister7 : Nat
  FullyExtendedRegister0 : Nat
  FullyExtendedRegister1 : Nat
  FullyExtendedRegister2 : Nat
  FullyExtendedRegister3 : Nat
  FullyExtendedRegister4 : Nat
  FullyExtendedRegister5 : Nat
  FullyExtendedRegister6 : Nat
  FullyExtendedRegister7 : Nat
  FullyExtendedRegister8 : Nat
  FullyExtendedRegister9 : Nat
  FullyExtendedRegister10 : Nat
  FullyExtendedRegister11 : Nat
  FullyExtendedRegister12 : Nat
  FullyExtendedRegister13 : Nat
  FullyExtendedRegister14 : Nat
  FullyExtendedRegister15 : Nat
  StackPointer : Nat
  DataPointer : Nat
  ExtendedSegmentPointer : Nat
  InstructionPointer : Nat
deriving DecidableEq

/-- The register file with every register zero (the spec's initial state:
registers zeroed). -/
def zeroRegisters : SysdarftRegisters :=
  ⟨0, 0, 0, 0, 0, 0, 0, 0, 0, 0, 0, 0, 0, 0, 0, 0, 0, 0, 0, 0, 0, 0,
   0, 0, 0, 0, 0, 0, 0, 0, 0, 0, 0, 0, 0, 0, 0, 0, 0, 0, 0, 0, 0, 0⟩

/-- `processor::Target::do_get_register` (real_mode_target_access.cpp
lines 89–147): dispatch on the width tag, then on the register index;
any uncovered combination raises `IllegalInstruction` (here `none`).
Note the 64-bit class covers only indices 0–7 and the three control
registers — indices 8–15 fall through to the illegal-instruction
assert. -/
def do_get_register (regs : SysdarftRegisters) (width idx : Nat) : Option Nat :=
  if width = 0x08 then
    if idx = 0x00 then some regs.R0
    else if idx = 0x01 then some regs.R1
    else if idx = 0x02 then some regs.R2
    else if idx = 0x03 then some regs.R3
    else if idx = 0x04 then some regs.R4
    else if idx = 0x05 then some regs.R5
    else if idx = 0x06 then some regs.R6
    else if idx = 0x07 then some regs.R7
    else none
  else if width = 0x16 then
    if idx = 0x00 then some regs.ExtendedRegister0
    else if idx = 0x01 then some regs.ExtendedRegister1
    else if idx = 0x02 then some regs.ExtendedRegister2
    else if idx = 0x03 then some regs.ExtendedRegister3
    else if idx = 0x04 then some regs.ExtendedRegister4
    else if idx = 0x05 then some regs.ExtendedRegister5
    else if idx = 0x06 then some regs.ExtendedRegister6
    else if idx = 0x07 then some regs.ExtendedRegister7
    else none
  else if width = 0x32 then
    if idx = 0x00 then some regs.HalfExtendedRegister0
    else if idx = 0x01 then some regs.HalfExtendedRegister1
    else if idx = 0x02 then some regs.HalfExtendedRegister2
    else if idx = 0x03 then some regs.HalfExtendedRegister3
    else if idx = 0x04 then some regs.HalfExtendedRegister4
    else if idx = 0x05 then some regs.HalfExtendedRegister5
    else if idx = 0x06 then some regs.HalfExtendedRegister6
    else if idx = 0x07 then some regs.HalfExtendedRegister7
    else none
  else if width = 0x64 then
    if idx = 0x00 then some regs.FullyExtendedRegister0
    else if idx = 0x01 then some regs.FullyExtendedRegister1
    else if idx = 0x02 then some regs.FullyExtendedRegister2
    else if idx = 0x03 then some regs.FullyExtendedRegister3
    else if idx = 0x04 then some regs.FullyExtendedRegister4
    else if idx = 0x05 then some regs.FullyExtendedRegister5
    else if idx = 0x06 then some regs.FullyExtendedRegister6
    else if idx = 0x07 then some regs.FullyExtendedRegister7
    else if idx = R_StackPointer then some regs.StackPointer
    else if idx = R_DataPointer then some regs.DataPointer
    else if idx = R_ExtendedSegmentPointer then some regs.ExtendedSegmentPointer
    else none
  else none

/-- `processor::Target::do_set_register` (lines 149–215): dispatch on the
width tag and index; stores narrow to the declared width via the C++
casts (`uint8_t`/`uint16_t`/`uint32_t`, and the `uint64_t` argument type
for the 64-bit class).  The 64-bit class covers indices 0–15 plus the
three control registers. -/
def do_set_register (regs : SysdarftRegisters) (width idx r : Nat) :
    Option SysdarftRegisters :=
  if width = 0x08 then
    if idx = 0x00 then some { regs with R0 := r % 2 ^ 8 }
    else if idx = 0x01 then some { regs with R1 := r % 2 ^ 8 }
    else if idx = 0x02 then some { regs with R2 := r % 2 ^ 8 }
    else if idx = 0x03 then some { regs with R3 := r % 2 ^ 8 }
    else if idx = 0x04 then some { regs with R4 := r % 2 ^ 8 }
    else if idx = 0x05 then some { regs with R5 := r % 2 ^ 8 }
    else if idx = 0x06 then some { regs with R6 := r % 2 ^ 8 }
    else if idx = 0x07 then some { regs with R7 := r % 2 ^ 8 }
    else none
  else if width = 0x16 then
    if idx = 0x00 then some { regs with ExtendedRegister0 := r % 2 ^ 16 }
    else if idx = 0x01 then some { regs with ExtendedRegister1 := r % 2 ^ 16 }
    else if idx = 0x02 then some { regs with ExtendedRegister2 := r % 2 ^ 16 }
    else if idx = 0x03 then some { regs with ExtendedRegister3 := r % 2 ^ 16 }
    else if idx = 0x04 then some { regs with ExtendedRegister4 := r % 2 ^ 16 }
    else if idx = 0x05 then some { regs with ExtendedRegister5 := r % 2 ^ 16 }
    else if idx = 0x06 then some { regs with ExtendedRegister6 := r % 2 ^ 16 }
    else if idx = 0x07 then some { regs with ExtendedRegister7 := r % 2 ^ 16 }
    else none
  else if width = 0x32 then
    if idx = 0x00 then some { regs with HalfExtendedRegister0 := r % 2 ^ 32 }
    else if idx = 0x01 then some { regs with HalfExtendedRegister1 := r % 2 ^ 32 }
    else if idx = 0x02 then some { regs with HalfExtendedRegister2 := r % 2 ^ 32 }
    else if idx = 0x03 then some { regs with HalfExtendedRegister3 := r % 2 ^ 32 }
    else if idx = 0x04 then some { regs with HalfExtendedRegister4 := r % 2 ^ 32 }
    else if idx = 0x05 then some { regs with HalfExtendedRegister5 := r % 2 ^ 32 }
    else if idx = 0x06 then some { regs with HalfExtendedRegister6 := r % 2 ^ 32 }
    else if idx = 0x07 then some { regs with HalfExtendedRegister7 := r % 2 ^ 32 }
    else none
  else if width = 0x64 then
    if idx = 0x00 then some { regs with FullyExtendedRegister0 := r % 2 ^ 64 }
    else if idx = 0x01 then some { regs with FullyExtendedRegister1 := r % 2 ^ 64 }
    else if idx = 0x02 then some { regs with FullyExtendedRegister2 := r % 2 ^ 64 }
    else if idx = 0x03 then some { regs with FullyExtendedRegister3 := r % 2 ^ 64 }
    else if idx = 0x04 then some { regs with FullyExtendedRegister4 := r % 2 ^ 64 }
    else if idx = 0x05 then some { regs with FullyExtendedRegister5 := r % 2 ^ 64 }
    else if idx = 0x06 then some { regs with FullyExtendedRegister6 := r % 2 ^ 64 }
    else if idx = 0x07 then some { regs with FullyExtendedRegister7 := r % 2 ^ 64 }
    else if idx = 0x08 then some { regs with FullyExtendedRegister8 := r % 2 ^ 64 }
    else if idx = 0x09 then some { regs with FullyExtendedRegister9 := r % 2 ^ 64 }
    else if idx = 0x0a then some { regs with FullyExtendedRegister10 := r % 2 ^ 64 }
    else if idx = 0x0b then some { regs with FullyExtendedRegister11 := r % 2 ^ 64 }
    else if idx = 0x0c then some { regs with FullyExtendedRegister12 := r % 2 ^ 64 }
    else if idx = 0x0d then some { regs with FullyExtendedRegister13 := r % 2 ^ 64 }
    else if idx = 0x0e then some { regs with FullyExtendedRegister14 := r % 2 ^ 64 }
    else if idx = 0x0f then some { regs with FullyExtendedRegister15 := r % 2 ^ 64 }
    else if idx = R_StackPointer then some { regs with StackPointer := r % 2 ^ 64 }
    else if idx = R_DataPointer then some { regs with DataPointer := r % 2 ^ 64 }
    else if idx = R_ExtendedSegmentPointer then
      some { regs with ExtendedSegmentPointer := r % 2 ^ 64 }
    else none
  else none

/-- Modelled from the spec: `CPU.get_memory` lives outside the given
sources.  §3: a flat byte-addressed space read as `length` consecutive
bytes in little-endian order.  Reads `n` bytes starting at `addr`. -/
def get_memory (m : Nat → Nat) (addr : Nat) : Nat → Nat
  | 0 => 0
  | n + 1 => m addr % 256 + 256 * get_memory m (addr + 1) n

/-- Modelled from the spec: `CPU.write_memory` lives outside the given
sources.  §3: writes `n` consecutive bytes of `val` at `addr`,
little-endian. -/
def write_memory (m : Nat → Nat) (addr val : Nat) : Nat → (Nat → Nat)
  | 0 => m
  | n + 1 =>
    write_memory (fun a => if a = addr then val % 256 else m a) (addr + 1) (val / 256) n

/-- Processor state visible to the operand resolver: the register file and
flat memory.  (The mutexes of the C++ serialise access and carry no
state.) -/
structure ProcessorState where
  Registers : SysdarftRegisters
  Memory : Nat → Nat

/-- The all-zero processor state (spec lifecycle: memory zeroed, registers
zeroed). -/
def zeroState : ProcessorState :=
  { Registers := zeroRegisters, Memory := fun _ => 0 }

/-- Kinds of a decoded operand (`TargetType` values in the C++). -/
inductive TargetKind
  | TypeRegister | TypeConstant | TypeMemory
deriving DecidableEq

/-- A decoded operand (`processor::Target`): kind, width tag, and the
`TargetInformation` payload fields.  Fields not assigned by the C++ for a
given kind are 0 here. -/
structure CPUTarget where
  TargetType : TargetKind
  TargetWidth : Nat
  RegisterIndex : Nat
  ConstantValue : Nat
  MemoryAddress : Nat
deriving DecidableEq

/-- `do_setup_register_info` (lines 13–29): pop the width tag and the
index (via `CPU.pop<8>`, which pulls bytes from the instruction stream);
width tags other than the five known ones raise `IllegalInstruction`.
The instruction stream is passed as the byte list at the instruction
pointer. -/
def do_setup_register_info (input : List Nat) : Option (CPUTarget × List Nat) :=
  match input with
  | width :: idx :: rest =>
    if width = 0x08 ∨ width = 0x16 ∨ width = 0x32 ∨ width = 0x64 ∨ width = 0xFC then
      some ({ TargetType := .TypeRegister, TargetWidth := width,
              RegisterIndex := idx, ConstantValue := 0, MemoryAddress := 0 }, rest)
    else none
  | _ => none

/-- `do_setup_constant_info` (lines 31–38): assert that the byte after the
constant prefix equals `0x64`, then pop the 8-byte little-endian value.
(The width-tag field of the C++ object is left unassigned; it is 0
here.) -/
def do_setup_constant_info (input : List Nat) : Option (CPUTarget × List Nat) :=
  match input with
  | b :: rest =>
    if b = 0x64 then
      match popBytes 8 rest with
      | some (v, rem) =>
        some ({ TargetType := .TypeConstant, TargetWidth := 0,
                RegisterIndex := 0, ConstantValue := v, MemoryAddress := 0 }, rem)
      | none => none
    else none
  | [] => none

/-- `get_target_content_in_u64bit_t` (lines 237–249): registers via
`do_get_register`, constants directly, memory by reading
`sizeof(uint64_t)` = 8 bytes at the effective address — regardless of the
declared access width. -/
def get_target_content_in_u64bit_t (st : ProcessorState) (t : CPUTarget) :
    Option Nat :=
  match t.TargetType with
  | .TypeRegister => do_get_register st.Registers t.TargetWidth t.RegisterIndex
  | .TypeConstant => some t.ConstantValue
  | .TypeMemory => some (get_memory st.Memory t.MemoryAddress 8)

/-- Byte count of a width tag as computed at the top of
`set_target_content_in_u64bit_t` (lines 219–226); other tags raise
`IllegalInstruction`. -/
def widthTagBytes (w : Nat) : Option Nat :=
  if w = 0x08 then some 1
  else if w = 0x16 then some 2
  else if w = 0x32 then some 4
  else if w = 0x64 then some 8
  else none

/-- `set_target_content_in_u64bit_t` (lines 217–235): compute the byte
width of the target's width tag, then dispatch — registers via
`do_set_register`, constants raise `IllegalInstruction`, memory writes
the low `actual_width` bytes of `val` at the effective address. -/
def set_target_content_in_u64bit_t (st : ProcessorState) (t : CPUTarget)
    (val : Nat) : Option ProcessorState :=
  match widthTagBytes t.TargetWidth with
  | none => none
  | some aw =>
    match t.TargetType with
    | .TypeRegister =>
      (do_set_register st.Registers t.TargetWidth t.RegisterIndex val).map
        fun r => { st with Registers := r }
    | .TypeConstant => none
    | .TypeMemory =>
      some { st with Memory := write_memory st.Memory t.MemoryAddress val aw }

/-- The per-parameter step of `do_setup_memory_info` (lines 46–65): pop a
prefix byte, assert it is a register or constant prefix, decode the
sub-operand, and take its 64-bit content.  Returns the sub-operand's value
and the remaining stream. -/
def decodeMemParam (st : ProcessorState) (input : List Nat) :
    Option (Nat × List Nat) :=
  match input with
  | p :: rest =>
    if p = REGISTER_PFX then
      match do_setup_register_info rest with
      | some (t, rem) =>
        match get_target_content_in_u64bit_t st t with
        | some v => some (v, rem)
        | none => none
      | none => none
    else if p = CONSTANT_PFX then
      match do_setup_constant_info rest with
      | some (t, rem) =>
        match get_target_content_in_u64bit_t st t with
        | some v => some (v, rem)
        | none => none
      | none => none
    else none
  | [] => none

/-- `do_setup_memory_info` (lines 40–76): pop the access width tag first,
then the three sub-operands (each a register or constant record), then
the ratio byte last; the effective address is
`(base + off1 + off2) * ratio` in wrapping `uint64_t` arithmetic, where
`ratio` is the raw popped byte. -/
def do_setup_memory_info (st : ProcessorState) (input : List Nat) :
    Option (CPUTarget × List Nat) :=
  match input with
  | width :: rest =>
    match decodeMemParam st rest with
    | none => none
    | some (b, r1) =>
      match decodeMemParam st r1 with
      | none => none
      | some (o1, r2) =>
        match decodeMemParam st r2 with
        | none => none
        | some (o2, r3) =>
          match r3 with
          | rb :: r4 =>
            some ({ TargetType := .TypeMemory, TargetWidth := width,
                    RegisterIndex := 0, ConstantValue := 0,
                    MemoryAddress := (b + o1 + o2) * rb % 2 ^ 64 }, r4)
          | [] => none
  | [] => none

/-- `do_decode_via_prefix` (lines 78–87): dispatch on the operand prefix
byte; unknown prefixes raise `IllegalInstruction`. -/
def do_decode_via_prefix (st : ProcessorState) (p : Nat) (input : List Nat) :
    Option (CPUTarget × List Nat) :=
  if p = REGISTER_PFX then do_setup_register_info input
  else if p = CONSTANT_PFX then do_setup_constant_info input
  else if p = MEMORY_PFX then do_setup_memory_info st input
  else none

/-- The `Target` constructor (lines 251–256): pop the prefix byte from the
instruction stream and decode via it. -/
def decodeTargetCPU (st : ProcessorState) (input : List Nat) :
    Option (CPUTarget × List Nat) :=
  match input with
  | p :: rest => do_decode_via_prefix st p rest
  | [] => none

/- ----------------------------------------------------------------- -/
/- Executor and interrupts (instruction_executor.cpp).                 -/
/- ----------------------------------------------------------------- -/

/-- The interrupt vector table as built by `__initialize_vector__`
(instruction_executor.cpp lines 8–25): for every `i` below 512, map
interrupt number `i` to address `0xA0000 + 8 * i`. -/
def interruption_vector_address_table : List (Nat × Nat) :=
  (List.range 512).map fun i => (i, 0xA0000 + 8 * i)

/-- `processor::soft_interruption_ready` (instruction_executor.cpp lines
38–40).  The body of the function in the source is empty: it mutates no
state. -/
def soft_interruption_ready (st : ProcessorState) (_int_code : Nat) :
    ProcessorState :=
  st

/-- Advance the instruction pointer by `n` bytes in wrapping `uint64_t`
arithmetic.  Modelled from the spec: `CPU.pop<N>` (declared in the absent
`cpu.h`) pulls `N/8` bytes from memory at the instruction pointer and
advances it (§4.4). -/
def advanceIP (st : ProcessorState) (n : Nat) : ProcessorState :=
  { st with Registers :=
      { st.Registers with InstructionPointer :=
          (st.Registers.InstructionPointer + n) % 2 ^ 64 } }

/-- `processor::__InstructionExecutorType__::add` (instruction_executor.cpp
lines 53–60): pop the width byte and two targets, then store the wrapping
64-bit sum of their contents into the first target.  The store models the
`Target::operator=` declared in the absent `cpu.h`; per the spec §4.5 `ADD`
is integer wrapping addition into the destination.  The instruction stream
is the byte list; the state is threaded; `none` models a thrown
`IllegalInstruction`. -/
def instruction_add (st : ProcessorState) (input : List Nat) :
    Option (ProcessorState × List Nat) :=
  match input with
  | _width :: rest =>
    match decodeTargetCPU st rest with
    | none => none
    | some (t1, r1) =>
      match decodeTargetCPU st r1 with
      | none => none
      | some (t2, r2) =>
        match get_target_content_in_u64bit_t st t1,
              get_target_content_in_u64bit_t st t2 with
        | some v1, some v2 =>
          match set_target_content_in_u64bit_t st t1 ((v1 + v2) % 2 ^ 64) with
          | some st2 => some (st2, r2)
          | none => none
        | _, _ => none
  | [] => none

/-- `processor::operation` (instruction_executor.cpp lines 28–36): pop the
64-bit opcode, dispatch `0x00` to `nop` (no effect), `0x01` to `add`, and
every other opcode to `soft_interruption_ready(INT_ILLEGAL_INSTRUCTION)`.
The instruction stream is the byte list at the instruction pointer; the
result carries the state, the remaining stream and the soft-interrupt code
that was raised, if any.  The instruction pointer advances by the 8 popped
opcode bytes (the later decode steps of `add` advance it further by the
bytes they pop). -/
def operation (st : ProcessorState) (input : List Nat) :
    Option (ProcessorState × List Nat × Option Nat) :=
  match popBytes 8 input with
  | none => none
  | some (opcode, rest) =>
    let st1 := advanceIP st 8
    if opcode = 0x00 then
      some (st1, rest, none)
    else if opcode = 0x01 then
      match instruction_add st1 rest with
      | some (st2, r2) =>
        some (advanceIP st2 (rest.length - r2.length), r2, none)
      | none => none
    else
      some (soft_interruption_ready st1 INT_ILLEGAL_INSTRUCTION, rest,
            some INT_ILLEGAL_INSTRUCTION)

/- ----------------------------------------------------------------- -/
/- Helper lemmas.                                                      -/
/- ----------------------------------------------------------------- -/

/-- Popping `n` bytes off a little-endian serialisation of `v` recovers
`v` mod 256^n and leaves the rest of the stream. -/
theorem popBytes_toLEBytes (n : Nat) :
    ∀ (v : Nat) (rest : List Nat),
      popBytes n (toLEBytes n v ++ rest) = some (v % 256 ^ n, rest) := by
  induction n with
  | zero => intro v rest; simp [popBytes, toLEBytes, Nat.mod_one]
  | succ n ih =>
    intro v rest
    simp only [toLEBytes, List.cons_append, popBytes, List.append_eq, ih]
    rw [pow_succ', Nat.mod_mul]

/-- The stored constant cell fits in 64 bits. -/
theorem storedVal_lt (E : Int) (n : Bool) : storedVal E n < 2 ^ 64 := by
  unfold storedVal
  have h1 : bcStored E n % (2 ^ 64 : Int) < 2 ^ 64 :=
    Int.emod_lt_of_pos _ (by norm_num)
  have h2 : (0 : Int) ≤ bcStored E n % (2 ^ 64 : Int) :=
    Int.emod_nonneg _ (by norm_num)
  omega

/-- The disassembler's `decode_constant` on an encoded constant yields the
canonical constant text and leaves the rest of the stream. -/
theorem decode_constant_encoded (E : Int) (n : Bool) (rest : List Nat) :
    decode_constant (storedSign E n :: (toLEBytes 8 (storedVal E n) ++ rest)) =
      some ([canonConstText E n], rest) := by
  simp only [decode_constant, popBytes_toLEBytes]
  have hv : storedVal E n % 256 ^ 8 = storedVal E n := by
    apply Nat.mod_eq_of_lt
    have := storedVal_lt E n
    norm_num at this ⊢
    omega
  rw [hv]
  rfl

/-- The disassembler's memory-parameter step on an encoded sub-operand
yields the canonical sub-operand text. -/
theorem decodeMemParamText_encoded (s : MemSub) (rest : List Nat) :
    decodeMemParamText (encodeMemSub s ++ rest) =
      some ([canonMemSubText s], rest) := by
  cases s with
  | fer i =>
    simp [encodeMemSub, encode_register_bytes, decodeMemParamText,
      REGISTER_PFX, regWidthTag, decode_register, canonMemSubText]
  | cnst E n =>
    simpa [encodeMemSub, encode_constant_bytes, decodeMemParamText,
      REGISTER_PFX, CONSTANT_PFX, canonMemSubText] using
      decode_constant_encoded E n rest

/-- Variant of `decodeMemParamText_encoded` with nothing following. -/
theorem decodeMemParamText_encoded_nil (s : MemSub) :
    decodeMemParamText (encodeMemSub s) = some ([canonMemSubText s], []) := by
  have h := decodeMemParamText_encoded s []
  simpa using h

/- ----------------------------------------------------------------- -/
/- C1                                                                  -/
/- ----------------------------------------------------------------- -/

/-- C1 (amended): for every operand conforming to the grammar (with
memory sub-operands restricted to 64-bit `FER` registers or constants, as
`encode_memory` enforces), disassembling the bytes produced by assembling
it yields exactly the canonical pieces: spaces stripped, upper-case,
unsigned constants in upper-case hexadecimal and signed constants in
decimal with a leading minus — except that the disassembler separates the
three memory sub-operands with a comma followed by one space.  The whole
encoding is consumed. -/
theorem c1_round_trip (t : ParsedTarget) :
    decode (encode_target t) = some (canonPieces t, []) := by
  cases t with
  | reg c i =>
    cases c <;>
      simp [encode_target, encode_register_bytes, decode, decode_register,
        REGISTER_PFX, CONSTANT_PFX, MEMORY_PFX, regWidthTag, canonPieces,
        regClassText]
  | cnst E n =>
    have h := decode_constant_encoded E n []
    rw [List.append_nil] at h
    simpa [encode_target, encode_constant_bytes, decode, REGISTER_PFX,
      CONSTANT_PFX, canonPieces] using h
  | mem r b o1 o2 =>
    cases r <;>
      simp [encode_target, decode, decode_memory, REGISTER_PFX, CONSTANT_PFX,
        MEMORY_PFX, memScaleByte, List.append_assoc,
        decodeMemParamText_encoded, decodeMemParamText_encoded_nil,
        canonPieces, memScaleText]

/-- C1 witness: the amended round trip at the concrete operand `%FER5`. -/
theorem c1_round_trip_witness :
    decode (encode_target (.reg .FER 5)) = some (canonPieces (.reg .FER 5), []) :=
  c1_round_trip _

/-- C1 counterexample: for the grammar-conforming operand text
`*1(%FER0,%FER1,%FER2)`, disassembling its assembly does not give the
space-stripped canonical text — the disassembler inserts a space after
each comma. -/
theorem c1_counterexample :
    (decode (encode_target (.mem .s1 (.fer 0) (.fer 1) (.fer 2)))).map
        (fun p => String.join p.1) ≠
      some (canonicalize (.mem .s1 (.fer 0) (.fer 1) (.fer 2))) := by
  decide

/- ----------------------------------------------------------------- -/
/- C10                                                                 -/
/- ----------------------------------------------------------------- -/

/-- Appending extra bytes after a stream that `popBytes` fully handles
does not change what is popped. -/
theorem popBytes_mono (n : Nat) :
    ∀ (P Q : List Nat) (v : Nat) (r : List Nat),
      popBytes n P = some (v, r) → popBytes n (P ++ Q) = some (v, r ++ Q) := by
  induction n with
  | zero =>
    intro P Q v r h
    simp only [popBytes] at h ⊢
    obtain ⟨rfl, rfl⟩ := by simpa using h
    rfl
  | succ n ih =>
    intro P Q v r h
    cases P with
    | nil => simp [popBytes] at h
    | cons b rest =>
      simp only [popBytes, List.cons_append, List.append_eq] at h ⊢
      cases hp : popBytes n rest with
      | none => rw [hp] at h; simp at h
      | some pr =>
        obtain ⟨hi, rem⟩ := pr
        rw [hp] at h
        rw [ih rest Q hi rem hp]
        simpa using h

/-- `decode_register` is unaffected by bytes past the record it consumes. -/
theorem decode_register_mono (P Q : List Nat) (o : List String) (r : List Nat)
    (h : decode_register P = some (o, r)) :
    decode_register (P ++ Q) = some (o, r ++ Q) := by
  cases P with
  | nil => simp [decode_register] at h
  | cons s P1 =>
    cases P1 with
    | nil => simp [decode_register] at h
    | cons i rest =>
      simp only [decode_register, List.cons_append] at h ⊢
      split_ifs at h ⊢ <;> simp_all

/-- `decode_constant` is unaffected by bytes past the record it consumes. -/
theorem decode_constant_mono (P Q : List Nat) (o : List String) (r : List Nat)
    (h : decode_constant P = some (o, r)) :
    decode_constant (P ++ Q) = some (o, r ++ Q) := by
  cases P with
  | nil => simp [decode_constant] at h
  | cons s rest =>
    simp only [decode_constant, List.cons_append] at h ⊢
    cases hp : popBytes 8 rest with
    | none => rw [hp] at h; simp at h
    | some pr =>
      obtain ⟨num, rem⟩ := pr
      rw [hp] at h
      rw [popBytes_mono 8 rest Q num rem hp]
      simpa using h

/-- The disassembler's memory-parameter step is unaffected by bytes past
the record it consumes. -/
theorem decodeMemParamText_mono (P Q : List Nat) (o : List String)
    (r : List Nat) (h : decodeMemParamText P = some (o, r)) :
    decodeMemParamText (P ++ Q) = some (o, r ++ Q) := by
  cases P with
  | nil => simp [decodeMemParamText] at h
  | cons p rest =>
    simp only [decodeMemParamText, List.cons_append] at h ⊢
    split_ifs at h ⊢
    · exact decode_register_mono rest Q o r h
    · exact decode_constant_mono rest Q o r h

/-- `decode_memory` is unaffected by bytes past the record it consumes. -/
theorem decode_memory_mono (P Q : List Nat) (o : List String) (r : List Nat)
    (h : decode_memory P = some (o, r)) :
    decode_memory (P ++ Q) = some (o, r ++ Q) := by
  cases P with
  | nil => simp [decode_memory] at h
  | cons rb rest =>
    simp only [decode_memory, List.cons_append] at h ⊢
    cases hro : (if rb = 0x01 then some "*1(" else if rb = 0x02 then some "*2("
        else if rb = 0x04 then some "*4(" else if rb = 0x08 then some "*8("
        else if rb = 0x16 then some "*16(" else none) with
    | none => rw [hro] at h; exact Option.noConfusion h
    | some rs =>
      rw [hro] at h
      dsimp only at h ⊢
      cases h1 : decodeMemParamText rest with
      | none => rw [h1] at h; exact Option.noConfusion h
      | some pr1 =>
        obtain ⟨o1, r1⟩ := pr1
        rw [h1] at h
        rw [decodeMemParamText_mono rest Q o1 r1 h1]
        dsimp only at h ⊢
        cases h2 : decodeMemParamText r1 with
        | none => rw [h2] at h; exact Option.noConfusion h
        | some pr2 =>
          obtain ⟨o2, r2⟩ := pr2
          rw [h2] at h
          rw [decodeMemParamText_mono r1 Q o2 r2 h2]
          dsimp only at h ⊢
          cases h3 : decodeMemParamText r2 with
          | none => rw [h3] at h; exact Option.noConfusion h
          | some pr3 =>
            obtain ⟨o3, r3⟩ := pr3
            rw [h3] at h
            rw [decodeMemParamText_mono r2 Q o3 r3 h3]
            simpa using h

/-- `decode` is unaffected by bytes past the operand record it consumes. -/
theorem decode_mono (P Q : List Nat) (o : List String) (r : List Nat)
    (h : decode P = some (o, r)) :
    decode (P ++ Q) = some (o, r ++ Q) := by
  cases P with
  | nil => simp [decode] at h
  | cons p rest =>
    simp only [decode, List.cons_append] at h ⊢
    split_ifs at h ⊢
    · exact decode_register_mono rest Q o r h
    · exact decode_constant_mono rest Q o r h
    · exact decode_memory_mono rest Q o r h

/-- C10: the disassembler's `decode` pops each byte off the front of its
input without a length check; in the total embedding, `decode` on any
strict prefix of a byte stream that decodes as one complete operand
(consuming it entirely) returns `none` rather than fabricating an
operand.  The empty stream is such a strict prefix. -/
theorem c10_truncated (B P Q : List Nat) (o : List String)
    (hfull : decode B = some (o, []))
    (hsplit : B = P ++ Q) (hstrict : Q ≠ []) :
    decode P = none := by
  cases h : decode P with
  | none => rfl
  | some pr =>
    obtain ⟨o1, r1⟩ := pr
    exfalso
    have h2 := decode_mono P Q o1 r1 h
    rw [← hsplit, hfull] at h2
    simp only [Option.some.injEq, Prod.mk.injEq] at h2
    exact hstrict ((List.append_eq_nil.mp h2.2.symm).2)

/-- C10 witness: the register record `01 64 00` decodes completely, and
`decode` on its strict two-byte prefix returns `none`. -/
theorem c10_truncated_witness : decode [0x01, 0x64] = none :=
  c10_truncated [0x01, 0x64, 0x00] [0x01, 0x64] [0x00] ["%FER0"]
    (by decide) (by decide) (by decide)

/- ----------------------------------------------------------------- -/
/- C9                                                                  -/
/- ----------------------------------------------------------------- -/

/-- C9: immediately after initialization, the interrupt vector table has
exactly 512 entries and maps every interrupt number `i < 512` to the
address `0xA0000 + 8 * i`. -/
theorem c9_vector_table :
    interruption_vector_address_table.length = 512 ∧
    ∀ i, i < 512 →
      interruption_vector_address_table.lookup i = some (0xA0000 + 8 * i) := by
  constructor
  · simp [interruption_vector_address_table]
  · intro i h
    unfold interruption_vector_address_table
    exact List.lookup_graph (fun j => 0xA0000 + 8 * j) (List.mem_range.mpr h)

/-- C9 witness: entry 3 of the table is `0xA0000 + 24`. -/
theorem c9_vector_table_witness :
    interruption_vector_address_table.lookup 3 = some (0xA0000 + 8 * 3) :=
  c9_vector_table.2 3 (by decide)

/- ----------------------------------------------------------------- -/
/- C5                                                                  -/
/- ----------------------------------------------------------------- -/

/-- C5 failing input, `n = 8`: the operand text `%FER8` does not match the
assembler's register pattern (which stops at `FER7`), and a decoded
register operand with width tag `0x64` and index 8 faults on read in
`do_get_register` — even though `do_set_register` accepts the same index
and the register file has `FullyExtendedRegister8`.  (The repository's own
test drives `%FER14` through this path.) -/
theorem c5_fer8_gap :
    is_valid_register "%FER8" = false ∧
    do_get_register zeroRegisters 0x64 8 = none ∧
    (do_set_register zeroRegisters 0x64 8 1).isSome = true := by
  decide

/- ----------------------------------------------------------------- -/
/- C8                                                                  -/
/- ----------------------------------------------------------------- -/

/-- The width/index pairs for which both `do_get_register` and
`do_set_register` have a case: indices 0–7 of the three small classes,
and indices 0–7 plus the three control registers of the 64-bit class. -/
def regReadWriteOK (width idx : Nat) : Prop :=
  ((width = 0x08 ∨ width = 0x16 ∨ width = 0x32) ∧ idx < 8) ∨
  (width = 0x64 ∧ (idx < 8 ∨ idx = R_StackPointer ∨ idx = R_DataPointer ∨
    idx = R_ExtendedSegmentPointer))

/-- Bit width declared by a register width tag. -/
def regWidthBits (width : Nat) : Nat :=
  if width = 0x08 then 8 else if width = 0x16 then 16
  else if width = 0x32 then 32 else 64

/-- C8 (amended): for every register that `do_get_register` supports —
indices 0–7 of each class plus the three 64-bit control registers, but not
`FER8`–`FER15`, which `do_set_register` accepts and `do_get_register`
faults on — writing `x` and reading back yields `x mod 2^w`: the write
narrows to the declared width `w` and the read returns the stored cell. -/
theorem c8_write_read (regs : SysdarftRegisters) (width idx x : Nat)
    (h : regReadWriteOK width idx) :
    (do_set_register regs width idx x).bind
        (fun r => do_get_register r width idx) =
      some (x % 2 ^ regWidthBits width) := by
  rcases h with ⟨hw, hi⟩ | ⟨hw, hi⟩
  · rcases hw with rfl | rfl | rfl <;> interval_cases idx <;>
      simp [do_set_register, do_get_register, regWidthBits, R_StackPointer,
        R_DataPointer, R_ExtendedSegmentPointer]
  · subst hw
    rcases hi with hi | rfl | rfl | rfl
    · interval_cases idx <;>
        simp [do_set_register, do_get_register, regWidthBits, R_StackPointer,
          R_DataPointer, R_ExtendedSegmentPointer]
    all_goals
      simp [do_set_register, do_get_register, regWidthBits, R_StackPointer,
        R_DataPointer, R_ExtendedSegmentPointer]

/-- C8 witness: writing 70000 to the 16-bit register `EXR3` and reading it
back yields 70000 mod 2^16. -/
theorem c8_write_read_witness :
    (do_set_register zeroRegisters 0x16 3 70000).bind
        (fun r => do_get_register r 0x16 3) =
      some (70000 % 2 ^ regWidthBits 0x16) :=
  c8_write_read zeroRegisters 0x16 3 70000
    (Or.inl ⟨Or.inr (Or.inl rfl), by norm_num⟩)

/-- C8 counterexample: `FER9` has declared width 64, and writing 5 to it
succeeds, but reading it back faults instead of yielding `5 mod 2^64`. -/
theorem c8_counterexample :
    ¬ ((do_set_register zeroRegisters 0x64 9 5).bind
        (fun r => do_get_register r 0x64 9) = some (5 % 2 ^ 64)) := by
  decide

/- ----------------------------------------------------------------- -/
/- C4                                                                  -/
/- ----------------------------------------------------------------- -/

/-- C4 counterexample: the CPU instruction-stream decoder rejects the
constant records `02 00 VAL` and `02 01 VAL` produced by the assembler
(`do_setup_constant_info` asserts the byte after the prefix equals
`0x64`), raising an illegal-instruction fault instead of accepting them. -/
theorem c4_counterexample :
    do_setup_constant_info (0x00 :: toLEBytes 8 5) = none ∧
    do_setup_constant_info (0x01 :: toLEBytes 8 5) = none := by
  decide

/-- C4 (amended): `do_setup_constant_info` rejects every record whose
byte after the constant prefix differs from `0x64` — in particular the
sign bytes `0x00`/`0x01` of the wire format — and accepts `02 64 VAL`,
producing the little-endian interpretation of the eight value bytes. -/
theorem c4_constant_decode :
    (∀ s rest, s ≠ 0x64 → do_setup_constant_info (s :: rest) = none) ∧
    (∀ v rest, v < 2 ^ 64 →
      do_setup_constant_info (0x64 :: (toLEBytes 8 v ++ rest)) =
        some ({ TargetType := .TypeConstant, TargetWidth := 0,
                RegisterIndex := 0, ConstantValue := v,
                MemoryAddress := 0 }, rest)) := by
  constructor
  · intro s rest hs
    simp [do_setup_constant_info, hs]
  · intro v rest hv
    norm_num at hv
    have hmod : v % 256 ^ 8 = v := by
      apply Nat.mod_eq_of_lt
      norm_num
      omega
    simp [do_setup_constant_info, popBytes_toLEBytes, hmod]
    all_goals omega

/-- C4 witness: the record `02 64` followed by the little-endian bytes of
42 decodes to a constant operand of value 42. -/
theorem c4_constant_decode_witness :
    do_setup_constant_info (0x64 :: (toLEBytes 8 42 ++ [])) =
      some ({ TargetType := .TypeConstant, TargetWidth := 0,
              RegisterIndex := 0, ConstantValue := 42,
              MemoryAddress := 0 }, []) :=
  c4_constant_decode.2 42 [] (by norm_num)

/- ----------------------------------------------------------------- -/
/- C2 and C3                                                           -/
/- ----------------------------------------------------------------- -/

/-- A memory sub-operand record in the wire form the CPU decoder accepts:
a register record `01 64 IDX` or a constant record `02 64 VAL`. -/
inductive CPUSub
  | reg64 (idx : Nat)
  | cnst (v : Nat)

/-- Wire bytes of a CPU-side memory sub-operand record. -/
def cpuSubBytes : CPUSub → List Nat
  | .reg64 i => [REGISTER_PFX, 0x64, i]
  | .cnst v => [CONSTANT_PFX, 0x64] ++ toLEBytes 8 v

/-- The 64-bit value a sub-operand resolves to against a processor state:
the register content via `do_get_register`, or the constant's low 64
bits. -/
def cpuSubVal (st : ProcessorState) : CPUSub → Option Nat
  | .reg64 i => do_get_register st.Registers 0x64 i
  | .cnst v => some (v % 2 ^ 64)

/-- The CPU decoder's memory-parameter step consumes exactly one encoded
sub-operand record and yields its resolved 64-bit value. -/
theorem decodeMemParam_cpuSub (st : ProcessorState) (s : CPUSub)
    (rest : List Nat) (v : Nat) (hv : cpuSubVal st s = some v) :
    decodeMemParam st (cpuSubBytes s ++ rest) = some (v, rest) := by
  cases s with
  | reg64 i =>
    simp only [cpuSubVal] at hv
    simp [cpuSubBytes, decodeMemParam, REGISTER_PFX, CONSTANT_PFX,
      do_setup_register_info, get_target_content_in_u64bit_t, hv]
  | cnst w =>
    simp only [cpuSubVal, Option.some.injEq] at hv
    have hmod : w % 256 ^ 8 = w % 2 ^ 64 := by norm_num
    simp [cpuSubBytes, decodeMemParam, REGISTER_PFX, CONSTANT_PFX,
      do_setup_constant_info, popBytes_toLEBytes,
      get_target_content_in_u64bit_t, hmod, hv]
    all_goals omega

/-- C2 (amended): the two sides of the codec use different memory byte
orderings.  The assembler's `encode_memory` serialises a memory operand
as `03 RATIO P1 P2 P3` with no access-width byte at all, while the CPU
instruction-stream decoder reads `03 WIDTH P1 P2 P3 RATIO` — the width is
the first byte after the memory prefix and the ratio byte comes last.
Consequently the CPU decoder applied to the assembler encoder's output
does not reconstruct the operand (see the counterexample, where it runs
out of bytes looking for the trailing ratio). -/
theorem c2_memory_layout :
    (∀ (r : MemScale) (b o1 o2 : MemSub),
      encode_target (.mem r b o1 o2) =
        MEMORY_PFX :: memScaleByte r ::
          (encodeMemSub b ++ encodeMemSub o1 ++ encodeMemSub o2)) ∧
    (∀ (st : ProcessorState) (w : Nat) (s1 s2 s3 : CPUSub)
        (v1 v2 v3 rb : Nat) (rest : List Nat),
      cpuSubVal st s1 = some v1 → cpuSubVal st s2 = some v2 →
      cpuSubVal st s3 = some v3 →
      decodeTargetCPU st (MEMORY_PFX :: w ::
          (cpuSubBytes s1 ++ cpuSubBytes s2 ++ cpuSubBytes s3 ++ rb :: rest)) =
        some ({ TargetType := .TypeMemory, TargetWidth := w,
                RegisterIndex := 0, ConstantValue := 0,
                MemoryAddress := (v1 + v2 + v3) * rb % 2 ^ 64 }, rest)) := by
  constructor
  · intro r b o1 o2
    rfl
  · intro st w s1 s2 s3 v1 v2 v3 rb rest h1 h2 h3
    have e1 := decodeMemParam_cpuSub st s1
      (cpuSubBytes s2 ++ (cpuSubBytes s3 ++ rb :: rest)) v1 h1
    have e2 := decodeMemParam_cpuSub st s2 (cpuSubBytes s3 ++ rb :: rest) v2 h2
    have e3 := decodeMemParam_cpuSub st s3 (rb :: rest) v3 h3
    simp [decodeTargetCPU, do_decode_via_prefix, do_setup_memory_info,
      MEMORY_PFX, REGISTER_PFX, CONSTANT_PFX, List.append_assoc, e1, e2, e3]

/-- C2 witness: layout of the encoder on `*2(%FER3, $(7), $(9))` and of
the CPU decoder on a width-first, ratio-last record over the zero state. -/
theorem c2_memory_layout_witness :
    encode_target (.mem .s2 (.fer 3) (.cnst 7 false) (.cnst 9 false)) =
      MEMORY_PFX :: memScaleByte .s2 ::
        (encodeMemSub (.fer 3) ++ encodeMemSub (.cnst 7 false) ++
          encodeMemSub (.cnst 9 false)) ∧
    decodeTargetCPU zeroState (MEMORY_PFX :: 0x64 ::
        (cpuSubBytes (.cnst 5) ++ cpuSubBytes (.cnst 6) ++
          cpuSubBytes (.cnst 7) ++ 0x02 :: [])) =
      some ({ TargetType := .TypeMemory, TargetWidth := 0x64,
              RegisterIndex := 0, ConstantValue := 0,
              MemoryAddress := (5 % 2 ^ 64 + 6 % 2 ^ 64 + 7 % 2 ^ 64) * 2 % 2 ^ 64 }, []) :=
  ⟨c2_memory_layout.1 .s2 (.fer 3) (.cnst 7 false) (.cnst 9 false),
   c2_memory_layout.2 zeroState 0x64 (.cnst 5) (.cnst 6) (.cnst 7)
     (5 % 2 ^ 64) (6 % 2 ^ 64) (7 % 2 ^ 64) 0x02 [] rfl rfl rfl⟩

/-- C2 counterexample: the CPU instruction-stream decoder applied to the
assembler encoder's bytes for the memory operand `*1(%FER0,%FER1,%FER2)`
fails (runs out of bytes) instead of reconstructing the operand. -/
theorem c2_counterexample :
    decodeTargetCPU zeroState
      (encode_target (.mem .s1 (.fer 0) (.fer 1) (.fer 2))) = none := by
  decide

/-- C3 (amended): for a memory record in the CPU wire format
`03 WIDTH P1 P2 P3 RATIO` whose sub-operands resolve to `vb`, `v1`, `v2`,
the operand resolver's effective address is `(vb + v1 + v2) * B mod 2^64`
where `B` is the raw ratio byte.  For the wire bytes `0x01/0x02/0x04/0x08`
this is the ratio `r` itself, but for ratio 16 — wire byte `0x16`, packed
BCD — the resolver multiplies by 22, the byte's binary value, not by 16. -/
theorem c3_effective_address (st : ProcessorState) (w : Nat)
    (s1 s2 s3 : CPUSub) (vb v1 v2 rb : Nat) (rest : List Nat)
    (h1 : cpuSubVal st s1 = some vb) (h2 : cpuSubVal st s2 = some v1)
    (h3 : cpuSubVal st s3 = some v2)
    (_hrb : rb = 0x01 ∨ rb = 0x02 ∨ rb = 0x04 ∨ rb = 0x08 ∨ rb = 0x16) :
    (do_setup_memory_info st (w ::
        (cpuSubBytes s1 ++ cpuSubBytes s2 ++ cpuSubBytes s3 ++
          rb :: rest))).map (fun p => p.1.MemoryAddress) =
      some ((vb + v1 + v2) * rb % 2 ^ 64) := by
  have e1 := decodeMemParam_cpuSub st s1
    (cpuSubBytes s2 ++ (cpuSubBytes s3 ++ rb :: rest)) vb h1
  have e2 := decodeMemParam_cpuSub st s2 (cpuSubBytes s3 ++ rb :: rest) v1 h2
  have e3 := decodeMemParam_cpuSub st s3 (rb :: rest) v2 h3
  simp [do_setup_memory_info, List.append_assoc, e1, e2, e3]

/-- C3 witness: base 1, offsets 0 and 0, ratio byte `0x08` gives address 8. -/
theorem c3_effective_address_witness :
    (do_setup_memory_info zeroState (0x64 ::
        (cpuSubBytes (.cnst 1) ++ cpuSubBytes (.cnst 0) ++
          cpuSubBytes (.cnst 0) ++ 0x08 :: []))).map
        (fun p => p.1.MemoryAddress) =
      some ((1 % 2 ^ 64 + 0 % 2 ^ 64 + 0 % 2 ^ 64) * 0x08 % 2 ^ 64) :=
  c3_effective_address zeroState 0x64 (.cnst 1) (.cnst 0) (.cnst 0)
    (1 % 2 ^ 64) (0 % 2 ^ 64) (0 % 2 ^ 64) 0x08 [] rfl rfl rfl
    (Or.inr (Or.inr (Or.inr (Or.inl rfl))))

/-- C3 counterexample: a memory operand with base 1, offsets 0 and 0 and
ratio 16 (wire byte `0x16`) resolves to address 22, not `(1+0+0)*16 = 16`:
the resolver multiplies by the raw packed-BCD byte. -/
theorem c3_counterexample :
    (do_setup_memory_info zeroState (0x64 ::
        (cpuSubBytes (.cnst 1) ++ cpuSubBytes (.cnst 0) ++
          cpuSubBytes (.cnst 0) ++ 0x16 :: []))).map
        (fun p => p.1.MemoryAddress) = some 22 ∧ (22 : Nat) ≠ 16 := by
  decide

/- ----------------------------------------------------------------- -/
/- C6                                                                  -/
/- ----------------------------------------------------------------- -/

/-- Pointwise description of `write_memory`: exactly the `k` bytes at
`addr` are replaced by the little-endian bytes of `val`; every other
address is untouched. -/
theorem write_memory_eq (k : Nat) :
    ∀ (m : Nat → Nat) (addr val a : Nat),
      write_memory m addr val k a =
        if addr ≤ a ∧ a < addr + k then val / 256 ^ (a - addr) % 256
        else m a := by
  induction k with
  | zero =>
    intro m addr val a
    have hc : ¬(addr ≤ a ∧ a < addr) := by omega
    simp [write_memory, hc]
  | succ k ih =>
    intro m addr val a
    simp only [write_memory, ih]
    by_cases h1 : addr + 1 ≤ a ∧ a < addr + 1 + k
    · rw [if_pos h1]
      have h2 : addr ≤ a ∧ a < addr + (k + 1) := by omega
      rw [if_pos h2]
      rw [Nat.div_div_eq_div_mul, ← pow_succ']
      have h3 : a - (addr + 1) + 1 = a - addr := by omega
      rw [h3]
    · rw [if_neg h1]
      by_cases h4 : a = addr
      · subst h4
        have h5 : a ≤ a ∧ a < a + (k + 1) := by omega
        rw [if_pos h5]
        simp
      · have h6 : ¬(addr ≤ a ∧ a < addr + (k + 1)) := by omega
        rw [if_neg h6]
        simp [h4]

/-- `get_memory` zero-extends: a read of `n` bytes is below 256^n. -/
theorem get_memory_lt (n : Nat) :
    ∀ (m : Nat → Nat) (addr : Nat), get_memory m addr n < 256 ^ n := by
  induction n with
  | zero => intro m addr; simp [get_memory]
  | succ n ih =>
    intro m addr
    have h1 := ih m (addr + 1)
    have h2 : m addr % 256 < 256 := Nat.mod_lt _ (by norm_num)
    simp only [get_memory]
    have : (256 : Nat) ^ (n + 1) = 256 * 256 ^ n := by rw [pow_succ']
    omega

/-- C6 (amended): on a decoded Memory operand, `get64` always reads 8
bytes at the effective address — `sizeof(uint64_t)`, regardless of the
declared access width — into a value below 2^64, while `set64` with a
valid width tag `w` writes exactly `w/8` bytes: the bytes at
`[addr, addr + w/8)` become the little-endian bytes of the value and
every other byte (and the register file) is unchanged. -/
theorem c6_memory_access (st : ProcessorState) (t : CPUTarget)
    (hm : t.TargetType = .TypeMemory) :
    (get_target_content_in_u64bit_t st t =
        some (get_memory st.Memory t.MemoryAddress 8) ∧
      get_memory st.Memory t.MemoryAddress 8 < 2 ^ 64) ∧
    (∀ val aw, widthTagBytes t.TargetWidth = some aw →
      ∃ st2, set_target_content_in_u64bit_t st t val = some st2 ∧
        st2.Registers = st.Registers ∧
        ∀ a, st2.Memory a =
          if t.MemoryAddress ≤ a ∧ a < t.MemoryAddress + aw then
            val / 256 ^ (a - t.MemoryAddress) % 256
          else st.Memory a) := by
  constructor
  · constructor
    · simp [get_target_content_in_u64bit_t, hm]
    · have := get_memory_lt 8 st.Memory t.MemoryAddress
      norm_num at this ⊢
      omega
  · intro val aw hw
    refine ⟨{ st with Memory := write_memory st.Memory t.MemoryAddress val aw },
      ?_, rfl, ?_⟩
    · simp [set_target_content_in_u64bit_t, hw, hm]
    · intro a
      exact write_memory_eq aw st.Memory t.MemoryAddress val a

/-- C6 witness: on a Memory operand of width tag `0x16` at address 100,
`get64` reads the 8 bytes there and `set64` writes exactly 2 bytes. -/
theorem c6_memory_access_witness :
    get_target_content_in_u64bit_t zeroState
        { TargetType := .TypeMemory, TargetWidth := 0x16, RegisterIndex := 0,
          ConstantValue := 0, MemoryAddress := 100 } =
      some (get_memory zeroState.Memory 100 8) :=
  (c6_memory_access zeroState
    { TargetType := .TypeMemory, TargetWidth := 0x16, RegisterIndex := 0,
      ConstantValue := 0, MemoryAddress := 100 } rfl).1.1

/-- C6 counterexample: a Memory operand of width tag `0x08` (one byte) at
address 0 over a memory holding `01 FF 00 …` reads back 65281 = `0xFF01`
— all 8 bytes — instead of the single zero-extended byte `0x01` the claim
requires. -/
theorem c6_counterexample :
    get_target_content_in_u64bit_t
        { Registers := zeroRegisters,
          Memory := fun a => if a = 0 then 1 else if a = 1 then 255 else 0 }
        { TargetType := .TypeMemory, TargetWidth := 0x08, RegisterIndex := 0,
          ConstantValue := 0, MemoryAddress := 0 } = some 65281 ∧
    (65281 : Nat) ≠ 1 := by
  decide

/- ----------------------------------------------------------------- -/
/- C7                                                                  -/
/- ----------------------------------------------------------------- -/

/-- C7 (amended): executing one step on any opcode other than `0x00`
(`NOP`) and `0x01` (`ADD`) invokes
`soft_interruption_ready(INT_ILLEGAL_INSTRUCTION)` — which in the source
has an empty body — so the step completes with no register mutated and
with the instruction pointer merely advanced past the 8 popped opcode
bytes, not set to the vector entry `0xA0000`. -/
theorem c7_illegal_opcode (st : ProcessorState) (input : List Nat)
    (opcode : Nat) (rest : List Nat)
    (hpop : popBytes 8 input = some (opcode, rest))
    (h0 : opcode ≠ 0x00) (h1 : opcode ≠ 0x01) :
    operation st input =
      some (advanceIP st 8, rest, some INT_ILLEGAL_INSTRUCTION) ∧
    (advanceIP st 8).Registers =
      { st.Registers with InstructionPointer :=
          (st.Registers.InstructionPointer + 8) % 2 ^ 64 } ∧
    (advanceIP st 8).Memory = st.Memory := by
  refine ⟨?_, rfl, rfl⟩
  simp [operation, hpop, h0, h1, soft_interruption_ready]

/-- C7 witness: one step of the zero state on the unknown opcode 2. -/
theorem c7_illegal_opcode_witness :
    operation zeroState (toLEBytes 8 2) =
      some (advanceIP zeroState 8, [], some INT_ILLEGAL_INSTRUCTION) :=
  (c7_illegal_opcode zeroState (toLEBytes 8 2) 2 []
    (by decide) (by decide) (by decide)).1

/-- C7 counterexample: after executing unknown opcode `0xFF` from the zero
state, the instruction pointer is 8 (just past the opcode), not the
illegal-instruction vector entry `0xA0000`: `soft_interruption_ready` in
the source is an empty stub and never writes the instruction pointer. -/
theorem c7_counterexample :
    (operation zeroState (toLEBytes 8 0xFF)).map
        (fun p => p.1.Registers.InstructionPointer) = some 8 ∧
    (8 : Nat) ≠ 0xA0000 := by
  decide
